import Mathlib

/-!
Shallow embedding of the `emitter` event library: the base `EventEmitter`
(src/src/EventEmitter.js), the `EventHolder` (unnamed source, module
EventHolder) and the `EventEmitterWithHolding` decorator
(src/src/EventEmitterWithHolding.js).

Modelling conventions:
* Event types, contexts and listener identities are natural numbers.
* A JavaScript object used as a dictionary is an association list
  `List (Nat × α)`; `delete dict[k]` removes the binding, assignment updates
  or appends it.
* A JavaScript array with holes is a `List (Option α)`: `delete arr[i]`
  replaces the entry with `none` (a tombstone) and keeps the length;
  out-of-range reads and deletes are no-ops; `Object.keys` / `forEach`
  enumerate the indices whose entry is `some`.
* `undefined` is `none` throughout (for cursor fields, contexts and the
  positional arguments `a`–`e` and the sentinel `_` of `emit`).
* A thrown `invariant` failure or `TypeError` is an `Except.error`; an error
  aborts the remaining work of the call, exactly as an uncaught exception
  does (in particular the cursor-restoring code after a listener call is
  skipped on the error path, as in the source).
* Listener bodies are modelled two ways: generically, as an arbitrary
  function `invoke : LId → Sys → Except Err Sys` applied where the source
  calls `listener.apply(context, args)`, and concretely by a small program
  type `Prog` interpreted with fuel, used for reentrant scenarios.  Every
  invocation performed by `emit` or `emitToListener` is appended to an
  observation log before the body runs.
* Stacks (`_currentEventKey`, `_heldEventsRemovalStack`) keep their top at
  the head of the list: `push` is `cons`, `pop` is `tail`,
  `stack[stack.length - 1]` is the head.
* `_heldEventsEmitDepth` is an `Int` so that the JavaScript truthiness test
  `if (depth)` is exactly `depth ≠ 0`.
-/

abbrev EvType := Nat

abbrev Ctx := Nat

abbrev LId := Nat

/-- The argument vector of an emission: the five positional arguments
`a`–`e` plus the sentinel `_` that `emit` requires to be `undefined`.
`EventHolder.holdEvent` stores all six. -/
structure Args where
  a : Option Nat
  b : Option Nat
  c : Option Nat
  d : Option Nat
  e : Option Nat
  s : Option Nat
deriving DecidableEq, Repr

/-- Instrumentation tag recording which slot an invocation came from:
a live `emit` pass over listener slot `key`, or a held-event replay of
retained record `index`. -/
inductive CallSrc where
  | live (t : EvType) (key : Nat)
  | held (t : EvType) (index : Nat)
deriving DecidableEq, Repr

/-- One observed listener invocation: the listener identity, the `this`
context it was called with (`none` = called without a context) and the
argument vector it received. -/
structure CallRec where
  src : CallSrc
  lid : LId
  ctx : Option Ctx
  args : Args
deriving DecidableEq, Repr

/-- What a listener observes about a call, apart from the model's
instrumentation tag: who was called, with which context, with which data. -/
def CallRec.obs (e : CallRec) : LId × Option Ctx × Args :=
  (e.lid, e.ctx, e.args)

inductive Err where
  | invariantViolation (msg : String)
  | typeError
  | outOfFuel
deriving DecidableEq, Repr

/-- Association-list lookup, modelling `dict[k]`. -/
def dlookup {α : Type} (m : List (Nat × α)) (k : Nat) : Option α :=
  match m with
  | [] => none
  | (k', v) :: rest => if k' = k then some v else dlookup rest k

/-- Association-list update, modelling `dict[k] = v`. -/
def dset {α : Type} (m : List (Nat × α)) (k : Nat) (v : α) : List (Nat × α) :=
  match m with
  | [] => [(k, v)]
  | (k', v') :: rest => if k' = k then (k', v) :: rest else (k', v') :: dset rest k v

/-- Association-list deletion, modelling `delete dict[k]`. -/
def ddel {α : Type} (m : List (Nat × α)) (k : Nat) : List (Nat × α) :=
  match m with
  | [] => []
  | (k', v') :: rest => if k' = k then ddel rest k else (k', v') :: ddel rest k

/-- `delete arr[i]` on a JavaScript array: tombstone the slot, keep the
length; out of range, do nothing. -/
def listDel {α : Type} (l : List (Option α)) (i : Nat) : List (Option α) :=
  match l, i with
  | [], _ => []
  | _ :: rest, 0 => none :: rest
  | x :: rest, i + 1 => x :: listDel rest i

/-- `arr[i] = v` on a JavaScript array that may be shorter than `i`:
missing slots between the old length and `i` become holes. -/
def setPad {α : Type} (l : List (Option α)) (i : Nat) (v : Option α) : List (Option α) :=
  match l, i with
  | [], 0 => [v]
  | [], i + 1 => none :: setPad [] i v
  | _ :: rest, 0 => v :: rest
  | x :: rest, i + 1 => x :: setPad rest i v

/-- `arr[len - 1] = b`: set the top of a stack kept head-first; on an empty
stack the JavaScript assignment to index `-1` leaves the entries unchanged. -/
def setHead (l : List Bool) (b : Bool) : List Bool :=
  match l with
  | [] => []
  | _ :: rest => b :: rest

/-- The indices `Object.keys(arr)` yields for an array with holes:
positions of non-hole entries, in ascending order. -/
def occupiedKeys {α : Type} (arr : List (Option α)) : List Nat :=
  (List.range arr.length).filter (fun i => (arr.getD i none).isSome)

/-- Read slot `k` of the array stored at `t`, holes and absent types both
reading as `undefined`. -/
def slotTab {α : Type} (tab : List (Nat × List (Option α))) (t : EvType) (k : Nat) : Option α :=
  ((dlookup tab t).getD []).getD k none

/-- A subscription handle returned from `addListener`: the event type and
the slot index it is bound to (`ListenerSubscription` in the source). -/
structure Subscription where
  eventType : EvType
  key : Nat
deriving DecidableEq, Repr

/-- A token returned from `EventHolder.holdEvent`: the event type and the
index of the retained record. -/
structure Token where
  eventType : EvType
  index : Nat
deriving DecidableEq, Repr

/-- State of the base `EventEmitter`: `_listenersByType`,
`_listenerContextsByType` and the single shared `_currentSubscription`
cursor (its two fields, each possibly `undefined`). -/
structure EmSt where
  listByType : List (EvType × List (Option LId))
  ctxByType : List (EvType × List (Option Ctx))
  curType : Option EvType
  curKey : Option Nat
deriving DecidableEq, Repr

/-- State of the `EventHolder`: `_heldEvents` and the `_currentEventKey`
stack of replay cursors (top at the head). -/
structure HSt where
  heldEvents : List (EvType × List (Option Args))
  currentEventKey : List Token
deriving DecidableEq, Repr

/-- Extra state of the `EventEmitterWithHolding` decorator:
`_currentEventToken`, `_heldEventsRemovalStack` (top at the head) and
`_heldEventsEmitDepth`. -/
structure WSt where
  currentEventToken : Option Token
  removalStack : List Bool
  emitDepth : Int
deriving DecidableEq, Repr

/-- The whole system: one base emitter, one holder, one holding decorator,
plus the observation log of listener invocations. -/
structure Sys where
  em : EmSt
  hold : HSt
  hw : WSt
  log : List CallRec
deriving DecidableEq, Repr

def initEm : EmSt := ⟨[], [], none, none⟩

def initHold : HSt := ⟨[], []⟩

def initSys : Sys := ⟨initEm, initHold, ⟨none, [], 0⟩, []⟩

namespace EventEmitter

/-- Read listener slot `k` for type `t`. -/
def slotAt (em : EmSt) (t : EvType) (k : Nat) : Option LId :=
  slotTab em.listByType t k

/-- Read the context stored for slot `k` of type `t`
(`contexts ? contexts[key] : undefined`). -/
def ctxAt (em : EmSt) (t : EvType) (k : Nat) : Option Ctx :=
  slotTab em.ctxByType t k

/-- `EventEmitter.addListener`: append a slot (and, when a context is
given, the matching context entry) and return the subscription bound to the
new slot. -/
def addListener (em : EmSt) (t : EvType) (lid : LId) (ctx : Option Ctx) : EmSt × Subscription :=
  let arr := (dlookup em.listByType t).getD []
  let key := arr.length
  let em1 : EmSt := { em with listByType := dset em.listByType t (arr ++ [some lid]) }
  let em2 : EmSt :=
    match ctx with
    | none => em1
    | some c =>
      let carr := (dlookup em1.ctxByType t).getD []
      { em1 with ctxByType := dset em1.ctxByType t (setPad carr key (some c)) }
  (em2, ⟨t, key⟩)

/-- `EventEmitter.removeSubscription`: tombstone the listener slot and the
context slot named by the subscription, each skipped when the type has no
array.  The arguments are `Option`s because the shared cursor record, whose
fields may be `undefined`, is also passed here. -/
def removeSubscription (em : EmSt) (et : Option EvType) (key : Option Nat) : EmSt :=
  match et with
  | none => em
  | some t =>
    let delAt : List (Option Nat) → List (Option Nat) := fun arr =>
      match key with
      | none => arr
      | some k => listDel arr k
    let em1 : EmSt :=
      match dlookup em.listByType t with
      | none => em
      | some arr => { em with listByType := dset em.listByType t (delAt arr) }
    match dlookup em1.ctxByType t with
    | none => em1
    | some carr => { em1 with ctxByType := dset em1.ctxByType t (delAt carr) }

/-- `EventEmitter.removeAllListeners`: drop the bindings for one type, or
reset both dictionaries when no type is given. -/
def removeAllListeners (em : EmSt) (t : Option EvType) : EmSt :=
  match t with
  | none => { em with listByType := [], ctxByType := [] }
  | some t => { em with listByType := ddel em.listByType t, ctxByType := ddel em.ctxByType t }

def notEmittingListenerMsg : String :=
  "Not in an emitting cycle; there is no current listener"

/-- `EventEmitter.removeCurrentListener`: invariant-check that the cursor
key is set, then remove the subscription the cursor names. -/
def removeCurrentListener (em : EmSt) : Except Err EmSt :=
  if em.curKey = none then .error (.invariantViolation notEmittingListenerMsg)
  else .ok (removeSubscription em em.curType em.curKey)

def emitArityMsg : String :=
  "EventEmitter.emit currently accepts only up to five listener arguments."

/-- The body of the `emit` loop over the snapshot of slot keys: re-read the
slot (it may have been tombstoned by an earlier listener of this pass),
skip holes, otherwise set the cursor key, record and run the listener. -/
def emitPass (invoke : LId → Sys → Except Err Sys) (t : EvType) (args : Args) :
    List Nat → Sys → Except Err Sys
  | [], s => .ok s
  | k :: ks, s =>
    match slotAt s.em t k with
    | none => emitPass invoke t args ks s
    | some lid =>
      let s1 : Sys :=
        { s with
          em := { s.em with curKey := some k },
          log := s.log ++ [⟨.live t k, lid, ctxAt s.em t k, args⟩] }
      match invoke lid s1 with
      | .error e => .error e
      | .ok s2 => emitPass invoke t args ks s2

/-- `EventEmitter.emit`: check the arity sentinel, do nothing when the type
has no listener array, otherwise set the cursor's event type, walk the
snapshot of occupied keys, and clear both cursor fields afterwards. -/
def emit (invoke : LId → Sys → Except Err Sys) (s : Sys) (t : EvType) (args : Args) :
    Except Err Sys :=
  if args.s ≠ none then .error (.invariantViolation emitArityMsg)
  else
    match dlookup s.em.listByType t with
    | none => .ok s
    | some arr0 =>
      let s1 : Sys := { s with em := { s.em with curType := some t } }
      match emitPass invoke t args (occupiedKeys arr0) s1 with
      | .error e => .error e
      | .ok s2 => .ok { s2 with em := { s2.em with curType := none, curKey := none } }

end EventEmitter

namespace EventHolder

/-- Read retained record `i` for type `t`. -/
def heldAt (h : HSt) (t : EvType) (i : Nat) : Option Args :=
  slotTab h.heldEvents t i

/-- `EventHolder.holdEvent`: append the argument tuple to the retained
sequence for `t` and return the token naming the new slot. -/
def holdEvent (h : HSt) (t : EvType) (args : Args) : HSt × Token :=
  let arr := (dlookup h.heldEvents t).getD []
  ({ h with heldEvents := dset h.heldEvents t (arr ++ [some args]) }, ⟨t, arr.length⟩)

/-- `EventHolder.releaseEvent`: `delete heldEvents[type][index]`.  When the
type has no retained array this is `delete` on `undefined`, which throws a
`TypeError` in strict mode. -/
def releaseEvent (h : HSt) (tok : Token) : Except Err HSt :=
  match dlookup h.heldEvents tok.eventType with
  | none => .error .typeError
  | some arr =>
    .ok { h with heldEvents := dset h.heldEvents tok.eventType (listDel arr tok.index) }

def notEmittingEventMsg : String :=
  "Not in an emitting cycle; there is no current event"

/-- `EventHolder.releaseCurrentEvent`: invariant-check that a replay is in
progress, then release the token at the top of the cursor stack. -/
def releaseCurrentEvent (h : HSt) : Except Err HSt :=
  match h.currentEventKey.head? with
  | none => .error (.invariantViolation notEmittingEventMsg)
  | some tok => releaseEvent h tok

/-- `EventHolder.releaseEventType`: replace the retained sequence for `t`
with an empty one. -/
def releaseEventType (h : HSt) (t : EvType) : HSt :=
  { h with heldEvents := dset h.heldEvents t [] }

/-- The body of `emitToListener`'s `forEach`: for each index of the
sequence present at call time, re-read the record, skip holes, otherwise
push the replay cursor, record and run the listener, and pop the cursor. -/
def holdPass (invoke : LId → Sys → Except Err Sys) (t : EvType) (lid : LId)
    (ctx : Option Ctx) : List Nat → Sys → Except Err Sys
  | [], s => .ok s
  | i :: is, s =>
    match heldAt s.hold t i with
    | none => holdPass invoke t lid ctx is s
    | some eh =>
      let s1 : Sys :=
        { s with
          hold := { s.hold with currentEventKey := ⟨t, i⟩ :: s.hold.currentEventKey },
          log := s.log ++ [⟨.held t i, lid, ctx, eh⟩] }
      match invoke lid s1 with
      | .error e => .error e
      | .ok s2 =>
        holdPass invoke t lid ctx is
          { s2 with hold := { s2.hold with currentEventKey := s2.hold.currentEventKey.tail } }

/-- `EventHolder.emitToListener`: nothing to do when the type has no
retained array, otherwise replay every retained record to the listener. -/
def emitToListener (invoke : LId → Sys → Except Err Sys) (s : Sys) (t : EvType)
    (lid : LId) (ctx : Option Ctx) : Except Err Sys :=
  match dlookup s.hold.heldEvents t with
  | none => .ok s
  | some arr0 => holdPass invoke t lid ctx (List.range arr0.length) s

end EventHolder

namespace EventEmitterWithHolding

/-- `EventEmitterWithHolding.addListener`: delegate to the base emitter. -/
def addListener (s : Sys) (t : EvType) (lid : LId) (ctx : Option Ctx) : Sys × Subscription :=
  let pr := EventEmitter.addListener s.em t lid ctx
  ({ s with em := pr.1 }, pr.2)

/-- `EventEmitterWithHolding.emit`: delegate to the base emitter. -/
def emit (invoke : LId → Sys → Except Err Sys) (s : Sys) (t : EvType) (args : Args) :
    Except Err Sys :=
  EventEmitter.emit invoke s t args

/-- `EventEmitterWithHolding.removeCurrentListener`: while a held-event
replay is in progress, only set the top of the removal-intent stack;
otherwise delegate to the base emitter. -/
def removeCurrentListener (s : Sys) : Except Err Sys :=
  if s.hw.emitDepth ≠ 0 then
    .ok { s with hw := { s.hw with removalStack := setHead s.hw.removalStack true } }
  else
    (EventEmitter.removeCurrentListener s.em).map (fun em => { s with em := em })

/-- `EventEmitterWithHolding.addRetroactiveListener`: register the listener
live, then replay the retained backlog to it under a pushed removal-intent
flag and an incremented replay depth; afterwards honour the flag by
removing the live subscription just created, and pop the flag. -/
def addRetroactiveListener (invoke : LId → Sys → Except Err Sys) (s : Sys) (t : EvType)
    (lid : LId) (ctx : Option Ctx) : Except Err (Sys × Subscription) :=
  let pr := EventEmitter.addListener s.em t lid ctx
  let sub := pr.2
  let s1 : Sys :=
    { s with
      em := pr.1,
      hw := { s.hw with
        removalStack := false :: s.hw.removalStack,
        emitDepth := s.hw.emitDepth + 1 } }
  match EventHolder.emitToListener invoke s1 t lid ctx with
  | .error e => .error e
  | .ok s2 =>
    let s3 : Sys := { s2 with hw := { s2.hw with emitDepth := s2.hw.emitDepth - 1 } }
    let s4 : Sys :=
      if s3.hw.removalStack.headD false then
        { s3 with em := EventEmitter.removeSubscription s3.em (some sub.eventType) (some sub.key) }
      else s3
    .ok ({ s4 with hw := { s4.hw with removalStack := s4.hw.removalStack.tail } }, sub)

/-- `EventEmitterWithHolding.emitAndHold`: hold the event, remember its
token as the current event, emit it live, then clear the token. -/
def emitAndHold (invoke : LId → Sys → Except Err Sys) (s : Sys) (t : EvType) (args : Args) :
    Except Err Sys :=
  let pr := EventHolder.holdEvent s.hold t args
  let s1 : Sys := { s with hold := pr.1, hw := { s.hw with currentEventToken := some pr.2 } }
  match EventEmitter.emit invoke s1 t args with
  | .error e => .error e
  | .ok s2 => .ok { s2 with hw := { s2.hw with currentEventToken := none } }

/-- `EventEmitterWithHolding.releaseCurrentEvent`: release the in-progress
`emitAndHold` token when set; otherwise, while replaying, delegate to the
holder's `releaseCurrentEvent`; otherwise do nothing. -/
def releaseCurrentEvent (s : Sys) : Except Err Sys :=
  match s.hw.currentEventToken with
  | some tok => (EventHolder.releaseEvent s.hold tok).map (fun h => { s with hold := h })
  | none =>
    if s.hw.emitDepth ≠ 0 then
      (EventHolder.releaseCurrentEvent s.hold).map (fun h => { s with hold := h })
    else .ok s

/-- `EventEmitterWithHolding.releaseHeldEventType`: delegate to the holder. -/
def releaseHeldEventType (s : Sys) (t : EvType) : Sys :=
  { s with hold := EventHolder.releaseEventType s.hold t }

end EventEmitterWithHolding

/-- Concrete listener bodies for reentrant scenarios: the operations a
listener may perform on the very emitter that is invoking it. -/
inductive Prog where
  | nop
  | pseq (p q : Prog)
  | emitP (t : EvType) (args : Args)
  | addListenerP (t : EvType) (lid : LId) (ctx : Option Ctx)
  | removeSubP (t : EvType) (k : Nat)
  | removeCurrentBaseP
  | removeCurrentHoldP
  | releaseCurrentHoldP
deriving DecidableEq, Repr

/-- Fueled interpreter for listener programs; each listener invoked during
a nested emission runs the program its identity maps to. -/
def run (env : LId → Prog) : Nat → Prog → Sys → Except Err Sys
  | 0, _, _ => .error .outOfFuel
  | Nat.succ fuel, p, s =>
    match p with
    | .nop => .ok s
    | .pseq p1 p2 =>
      match run env fuel p1 s with
      | .error e => .error e
      | .ok s1 => run env fuel p2 s1
    | .emitP t args => EventEmitter.emit (fun lid s1 => run env fuel (env lid) s1) s t args
    | .addListenerP t lid ctx => .ok { s with em := (EventEmitter.addListener s.em t lid ctx).1 }
    | .removeSubP t k => .ok { s with em := EventEmitter.removeSubscription s.em (some t) (some k) }
    | .removeCurrentBaseP =>
      (EventEmitter.removeCurrentListener s.em).map (fun em => { s with em := em })
    | .removeCurrentHoldP => EventEmitterWithHolding.removeCurrentListener s
    | .releaseCurrentHoldP => EventEmitterWithHolding.releaseCurrentEvent s

/-- Listener semantics induced by a program environment and a fuel bound. -/
def invokeOf (env : LId → Prog) (fuel : Nat) : LId → Sys → Except Err Sys :=
  fun lid s => run env fuel (env lid) s

/-- The semantics of a listener whose body does nothing. -/
def pureInvoke : LId → Sys → Except Err Sys := fun _ s => .ok s

/-- An argument vector with every position `undefined`. -/
def noArgs : Args := ⟨none, none, none, none, none, none⟩

/-- An argument vector carrying one value in the first position. -/
def argsOf (x : Nat) : Args := ⟨some x, none, none, none, none, none⟩

/-- Evaluate a check on the final state of a computation that is expected
to have succeeded. -/
def afterOk (r : Except Err Sys) (p : Sys → Bool) : Bool :=
  match r with
  | .ok s => p s
  | .error _ => false

theorem dlookup_dset_self {α : Type} (m : List (Nat × α)) (k : Nat) (v : α) :
    dlookup (dset m k v) k = some v := by
  induction m with
  | nil => simp [dset, dlookup]
  | cons p rest ih =>
    obtain ⟨k', v'⟩ := p
    by_cases h : k' = k
    · simp [dset, dlookup, h]
    · simp [dset, dlookup, h, ih]

theorem dlookup_dset_ne {α : Type} (m : List (Nat × α)) (k k2 : Nat) (v : α)
    (h : k ≠ k2) : dlookup (dset m k v) k2 = dlookup m k2 := by
  induction m with
  | nil => simp [dset, dlookup, h]
  | cons p rest ih =>
    obtain ⟨k', v'⟩ := p
    by_cases hk : k' = k
    · subst hk
      simp [dset, dlookup, h]
    · by_cases hk2 : k' = k2 <;> simp [dset, dlookup, hk, hk2, ih, Ne.symm h]

theorem dset_dset {α : Type} (m : List (Nat × α)) (k : Nat) (v w : α) :
    dset (dset m k v) k w = dset m k w := by
  induction m with
  | nil => simp [dset]
  | cons p rest ih =>
    obtain ⟨k', v'⟩ := p
    by_cases h : k' = k <;> simp [dset, h, ih]

theorem dset_of_dlookup_eq {α : Type} (m : List (Nat × α)) (k : Nat) (v : α)
    (h : dlookup m k = some v) : dset m k v = m := by
  induction m with
  | nil => simp [dlookup] at h
  | cons p rest ih =>
    obtain ⟨k', v'⟩ := p
    by_cases hk : k' = k
    · simp [dlookup, hk] at h
      simp [dset, hk, h]
    · simp [dlookup, hk] at h
      simp [dset, hk, ih h]

theorem listDel_getD_self {α : Type} (l : List (Option α)) (i : Nat) :
    (listDel l i).getD i none = none := by
  induction l generalizing i with
  | nil => simp [listDel]
  | cons x rest ih =>
    cases i with
    | zero => simp [listDel]
    | succ j => simpa [listDel] using ih j

theorem listDel_getD_ne {α : Type} (l : List (Option α)) (i j : Nat) (h : j ≠ i) :
    (listDel l i).getD j none = l.getD j none := by
  induction l generalizing i j with
  | nil => simp [listDel]
  | cons x rest ih =>
    cases i with
    | zero =>
      cases j with
      | zero => exact absurd rfl h
      | succ j2 => simp [listDel]
    | succ i2 =>
      cases j with
      | zero => simp [listDel]
      | succ j2 =>
        have : j2 ≠ i2 := fun he => h (by rw [he])
        simpa [listDel] using ih i2 j2 this

theorem listDel_listDel {α : Type} (l : List (Option α)) (i : Nat) :
    listDel (listDel l i) i = listDel l i := by
  induction l generalizing i with
  | nil => simp [listDel]
  | cons x rest ih =>
    cases i with
    | zero => simp [listDel]
    | succ j => simp [listDel, ih]

theorem getD_some_lt {α : Type} (l : List (Option α)) (i : Nat) (v : α)
    (h : l.getD i none = some v) : i < l.length := by
  by_contra hlt
  rw [List.getD_eq_default _ _ (Nat.le_of_not_lt hlt)] at h
  exact Option.noConfusion h

theorem getD_append_self {α : Type} (l : List (Option α)) (x : Option α) :
    (l ++ [x]).getD l.length none = x := by
  rw [List.getD_append_right _ _ _ _ (Nat.le_refl _)]
  simp

theorem getD_append_lt {α : Type} (l l2 : List (Option α)) (i : Nat) (h : i < l.length) :
    (l ++ l2).getD i none = l.getD i none := by
  induction l generalizing i with
  | nil => simp at h
  | cons x rest ih =>
    cases i with
    | zero => rfl
    | succ j => simpa using ih j (Nat.lt_of_succ_lt_succ h)

theorem occupiedKeys_mem_lt {α : Type} (arr : List (Option α)) (k : Nat)
    (h : k ∈ occupiedKeys arr) : k < arr.length := by
  have := List.mem_filter.mp h
  exact List.mem_range.mp this.1

/-- An `EmSt` whose cursor fields are already clear is unchanged by
clearing them again. -/
theorem emSt_clear_cursor_eq (em : EmSt) (h1 : em.curType = none) (h2 : em.curKey = none) :
    ({ em with curType := none, curKey := none } : EmSt) = em := by
  cases em
  simp_all

/-- `releaseEvent` tombstones exactly the slot its token names and leaves
every other retained record, of any type, unchanged. -/
theorem releaseEvent_exact (h : HSt) (tok : Token) (h' : HSt)
    (hrel : EventHolder.releaseEvent h tok = .ok h') :
    EventHolder.heldAt h' tok.eventType tok.index = none ∧
      ∀ t' i, t' ≠ tok.eventType ∨ i ≠ tok.index →
        EventHolder.heldAt h' t' i = EventHolder.heldAt h t' i := by
  unfold EventHolder.releaseEvent at hrel
  cases hd : dlookup h.heldEvents tok.eventType with
  | none => rw [hd] at hrel; exact Except.noConfusion hrel
  | some arr =>
    rw [hd] at hrel
    injection hrel with hrel
    subst hrel
    constructor
    · simpa [EventHolder.heldAt, slotTab, dlookup_dset_self] using
        listDel_getD_self arr tok.index
    · intro t' i hne
      by_cases ht : t' = tok.eventType
      · subst ht
        have hi : i ≠ tok.index := by
          rcases hne with hne | hne
          · exact absurd rfl hne
          · exact hne
        simpa [EventHolder.heldAt, slotTab, dlookup_dset_self, hd] using
          listDel_getD_ne arr tok.index i hi
      · simp [EventHolder.heldAt, slotTab, dlookup_dset_ne _ _ _ _ (fun he => ht he.symm)]

/-- `removeSubscription` with a real subscription tombstones exactly that
listener slot and leaves every other listener slot, of any type,
unchanged. -/
theorem removeSubscription_exact (em : EmSt) (t : EvType) (k : Nat) :
    EventEmitter.slotAt (EventEmitter.removeSubscription em (some t) (some k)) t k = none ∧
      ∀ t' k', t' ≠ t ∨ k' ≠ k →
        EventEmitter.slotAt (EventEmitter.removeSubscription em (some t) (some k)) t' k'
          = EventEmitter.slotAt em t' k' := by
  cases hd : dlookup em.listByType t with
  | none =>
    have hlbt : (EventEmitter.removeSubscription em (some t) (some k)).listByType
        = em.listByType := by
      unfold EventEmitter.removeSubscription
      simp only [hd]
      split <;> rfl
    constructor
    · simp [EventEmitter.slotAt, slotTab, hlbt, hd]
    · intro t' k' _
      simp [EventEmitter.slotAt, slotTab, hlbt]
  | some arr =>
    have hlbt : (EventEmitter.removeSubscription em (some t) (some k)).listByType
        = dset em.listByType t (listDel arr k) := by
      unfold EventEmitter.removeSubscription
      simp only [hd]
      split <;> rfl
    constructor
    · simpa [EventEmitter.slotAt, slotTab, hlbt, dlookup_dset_self] using
        listDel_getD_self arr k
    · intro t' k' hne
      by_cases ht : t' = t
      · subst ht
        have hk : k' ≠ k := by
          rcases hne with hne | hne
          · exact absurd rfl hne
          · exact hne
        simpa [EventEmitter.slotAt, slotTab, hlbt, dlookup_dset_self, hd] using
          listDel_getD_ne arr k k' hk
      · simp [EventEmitter.slotAt, slotTab, hlbt,
          dlookup_dset_ne _ _ _ _ (fun he => ht he.symm)]

/-- The invocations an `emit` pass performs when listener bodies do not
mutate the emitter: one call record per occupied slot among the visited
keys, in key order, with the slot's listener, its stored context and the
emitted arguments. -/
def passCalls (em : EmSt) (t : EvType) (args : Args) : List Nat → List CallRec
  | [] => []
  | k :: ks =>
    match EventEmitter.slotAt em t k with
    | none => passCalls em t args ks
    | some lid => ⟨.live t k, lid, EventEmitter.ctxAt em t k, args⟩ :: passCalls em t args ks

theorem passCalls_congr (em1 em2 : EmSt) (hl : em1.listByType = em2.listByType)
    (hc : em1.ctxByType = em2.ctxByType) (t : EvType) (args : Args) :
    ∀ ks, passCalls em1 t args ks = passCalls em2 t args ks := by
  intro ks
  induction ks with
  | nil => rfl
  | cons k ks ih =>
    have hs : EventEmitter.slotAt em1 t k = EventEmitter.slotAt em2 t k := by
      simp [EventEmitter.slotAt, slotTab, hl]
    have hcx : EventEmitter.ctxAt em1 t k = EventEmitter.ctxAt em2 t k := by
      simp [EventEmitter.ctxAt, slotTab, hc]
    simp only [passCalls, hs, hcx, ih]

/-- An `emit` pass with listeners whose bodies do nothing: the final state
is the input state with some cursor key and exactly the snapshot's calls
appended to the log. -/
theorem emitPass_pure (t : EvType) (args : Args) :
    ∀ (ks : List Nat) (s : Sys), ∃ ck,
      EventEmitter.emitPass pureInvoke t args ks s =
        .ok { s with em := { s.em with curKey := ck },
                     log := s.log ++ passCalls s.em t args ks } := by
  intro ks
  induction ks with
  | nil =>
    intro s
    exact ⟨s.em.curKey, by simp [EventEmitter.emitPass, passCalls]⟩
  | cons k ks ih =>
    intro s
    cases hslot : EventEmitter.slotAt s.em t k with
    | none =>
      obtain ⟨ck, hck⟩ := ih s
      exact ⟨ck, by simp only [EventEmitter.emitPass, hslot, passCalls, hck]⟩
    | some lid =>
      set s1 : Sys :=
        { s with
          em := { s.em with curKey := some k },
          log := s.log ++ [⟨.live t k, lid, EventEmitter.ctxAt s.em t k, args⟩] } with hs1
      obtain ⟨ck, hck⟩ := ih s1
      refine ⟨ck, ?_⟩
      have hpc : passCalls s1.em t args ks = passCalls s.em t args ks :=
        passCalls_congr s1.em s.em rfl rfl t args ks
      simp only [EventEmitter.emitPass, hslot, pureInvoke, hck, hs1, hpc, passCalls,
        List.append_assoc, List.singleton_append]

/-- The listener-slot key a log entry refers to, when it records a live
invocation for type `t`. -/
def liveKeyOf (t : EvType) (e : CallRec) : Option Nat :=
  match e.src with
  | .live t' k => if t' = t then some k else none
  | .held _ _ => none

/-- Listener bodies that may do anything to the state except record a live
invocation of type `t` (in particular, bodies that do not re-emit `t`);
their effect on the log is to append entries of other kinds. -/
def AvoidsLiveT (t : EvType) (invoke : LId → Sys → Except Err Sys) : Prop :=
  ∀ lid s s', invoke lid s = .ok s' →
    ∃ ext, s'.log = s.log ++ ext ∧ ∀ e ∈ ext, liveKeyOf t e = none

/-- An `emit` pass only records live invocations of its own type at keys
belonging to the snapshot it was given, provided listener bodies do not
themselves record live invocations of that type. -/
theorem emitPass_snapshot (t : EvType) (args : Args)
    (invoke : LId → Sys → Except Err Sys) (hA : AvoidsLiveT t invoke) :
    ∀ (ks : List Nat) (s s' : Sys),
      EventEmitter.emitPass invoke t args ks s = .ok s' →
      ∃ ext, s'.log = s.log ++ ext ∧
        ∀ e ∈ ext, ∀ k, liveKeyOf t e = some k → k ∈ ks := by
  intro ks
  induction ks with
  | nil =>
    intro s s' hps
    simp only [EventEmitter.emitPass] at hps
    injection hps with hps
    subst hps
    exact ⟨[], by simp⟩
  | cons k ks ih =>
    intro s s' hps
    simp only [EventEmitter.emitPass] at hps
    split at hps
    · obtain ⟨ext, hlog, hmem⟩ := ih s s' hps
      exact ⟨ext, hlog, fun e he k2 hk2 => List.mem_cons_of_mem _ (hmem e he k2 hk2)⟩
    · rename_i lid hslot
      split at hps
      · exact Except.noConfusion hps
      · rename_i s2 hinv
        obtain ⟨ext1, hlog1, hmem1⟩ := hA lid _ s2 hinv
        obtain ⟨ext2, hlog2, hmem2⟩ := ih s2 s' hps
        refine ⟨⟨.live t k, lid, EventEmitter.ctxAt s.em t k, args⟩ :: (ext1 ++ ext2), ?_, ?_⟩
        · rw [hlog2, hlog1]
          simp
        · intro e he k2 hk2
          rcases List.mem_cons.mp he with he | he
          · subst he
            simp only [liveKeyOf, if_pos rfl] at hk2
            injection hk2 with hk2
            subst hk2
            exact List.mem_cons_self _ _
          · rcases List.mem_append.mp he with he | he
            · rw [hmem1 e he] at hk2
              exact Option.noConfusion hk2
            · exact List.mem_cons_of_mem _ (hmem2 e he k2 hk2)

/-- A replay pass over indices that all read as holes does nothing. -/
theorem holdPass_all_none (invoke : LId → Sys → Except Err Sys) (t : EvType)
    (lid : LId) (ctx : Option Ctx) :
    ∀ (is : List Nat) (s : Sys), (∀ i, EventHolder.heldAt s.hold t i = none) →
      EventHolder.holdPass invoke t lid ctx is s = .ok s := by
  intro is
  induction is with
  | nil => intro s _; rfl
  | cons i is ih =>
    intro s hall
    simp only [EventHolder.holdPass, hall i]
    exact ih s hall

/-- C2 scenario: hold records A, B, C for type 50, release B through its
token, then replay type 50 to listener 9. -/
def c2Chain : Except Err Sys :=
  let pr1 := EventHolder.holdEvent initHold 50 (argsOf 11)
  let pr2 := EventHolder.holdEvent pr1.1 50 (argsOf 12)
  let pr3 := EventHolder.holdEvent pr2.1 50 (argsOf 13)
  (EventHolder.releaseEvent pr3.1 pr2.2).bind (fun h =>
    EventHolder.emitToListener pureInvoke { initSys with hold := h } 50 9 none)

/-- C2: a `holdEvent` token names exactly the retained slot that call
created (the next index of its type); the record is readable there; later
holds never disturb existing records; `releaseEvent` tombstones exactly
the token's slot and nothing else; and in the concrete [A, B, C] scenario,
releasing B's token and replaying delivers exactly A then C, in order. -/
theorem c2_holdEvent_token_precision :
    (∀ (h : HSt) (t : EvType) (args : Args),
      (EventHolder.holdEvent h t args).2 = ⟨t, ((dlookup h.heldEvents t).getD []).length⟩
      ∧ EventHolder.heldAt (EventHolder.holdEvent h t args).1 t
          ((dlookup h.heldEvents t).getD []).length = some args)
    ∧ (∀ (h : HSt) (t : EvType) (args : Args) (t' i : Nat) (v : Args),
        EventHolder.heldAt h t' i = some v →
        EventHolder.heldAt (EventHolder.holdEvent h t args).1 t' i = some v)
    ∧ (∀ (h : HSt) (tok : Token) (h' : HSt),
        EventHolder.releaseEvent h tok = .ok h' →
        EventHolder.heldAt h' tok.eventType tok.index = none
        ∧ ∀ t' i, t' ≠ tok.eventType ∨ i ≠ tok.index →
            EventHolder.heldAt h' t' i = EventHolder.heldAt h t' i)
    ∧ c2Chain.map (fun s => s.log) =
        .ok [⟨.held 50 0, 9, none, argsOf 11⟩, ⟨.held 50 2, 9, none, argsOf 13⟩] := by
  refine ⟨?_, ?_, ?_, rfl⟩
  · intro h t args
    constructor
    · rfl
    · simp [EventHolder.holdEvent, EventHolder.heldAt, slotTab, dlookup_dset_self,
        getD_append_self ((dlookup h.heldEvents t).getD []) (some args)]
  · intro h t args t' i v hv
    by_cases ht : t' = t
    · subst ht
      have harr : ((dlookup h.heldEvents t').getD []).getD i none = some v := by
        simpa [EventHolder.heldAt, slotTab] using hv
      have hlt := getD_some_lt _ _ _ harr
      have happ := getD_append_lt ((dlookup h.heldEvents t').getD []) [some args] i hlt
      simp only [EventHolder.holdEvent, EventHolder.heldAt, slotTab, dlookup_dset_self,
        Option.getD_some]
      rw [happ]
      exact harr
    · have := dlookup_dset_ne h.heldEvents t t'
        (((dlookup h.heldEvents t).getD []) ++ [some args]) (fun he => ht he.symm)
      simpa [EventHolder.holdEvent, EventHolder.heldAt, slotTab, this] using hv
  · intro h tok h' hrel
    exact releaseEvent_exact h tok h' hrel

/-- Witness for C2: on a fresh holder, hold one record of type 7, release
it through the returned token, and observe the slot tombstoned. -/
theorem c2_witness :
    EventHolder.releaseEvent (EventHolder.holdEvent initHold 7 (argsOf 1)).1 ⟨7, 0⟩ =
      .ok ⟨[(7, [none])], []⟩
    ∧ EventHolder.heldAt (⟨[(7, [none])], []⟩ : HSt) 7 0 = none :=
  ⟨rfl,
    (c2_holdEvent_token_precision.2.2.1 (EventHolder.holdEvent initHold 7 (argsOf 1)).1
      ⟨7, 0⟩ ⟨[(7, [none])], []⟩ rfl).1⟩

/-- C5: the holding emitter's `releaseCurrentEvent` routes in order: an
in-progress `emitAndHold` token wins and is released exactly (that record
tombstoned, all others untouched); otherwise a positive replay depth
delegates to the holder's own `releaseCurrentEvent`, which targets the top
of the replay cursor stack; otherwise the call is a no-op and returns
without raising. -/
theorem c5_releaseCurrentEvent_routing :
    (∀ (s : Sys) (tok : Token), s.hw.currentEventToken = some tok →
      EventEmitterWithHolding.releaseCurrentEvent s
        = (EventHolder.releaseEvent s.hold tok).map (fun h => { s with hold := h })
      ∧ ∀ h', EventHolder.releaseEvent s.hold tok = .ok h' →
          EventHolder.heldAt h' tok.eventType tok.index = none
          ∧ ∀ t' i, t' ≠ tok.eventType ∨ i ≠ tok.index →
              EventHolder.heldAt h' t' i = EventHolder.heldAt s.hold t' i)
    ∧ (∀ s : Sys, s.hw.currentEventToken = none → s.hw.emitDepth ≠ 0 →
        EventEmitterWithHolding.releaseCurrentEvent s
          = (EventHolder.releaseCurrentEvent s.hold).map (fun h => { s with hold := h })
        ∧ ∀ tok, s.hold.currentEventKey.head? = some tok →
            EventHolder.releaseCurrentEvent s.hold = EventHolder.releaseEvent s.hold tok)
    ∧ (∀ s : Sys, s.hw.currentEventToken = none → s.hw.emitDepth = 0 →
        EventEmitterWithHolding.releaseCurrentEvent s = .ok s) := by
  refine ⟨?_, ?_, ?_⟩
  · intro s tok htok
    constructor
    · simp [EventEmitterWithHolding.releaseCurrentEvent, htok]
    · intro h' hrel
      exact releaseEvent_exact s.hold tok h' hrel
  · intro s htok hdepth
    constructor
    · simp [EventEmitterWithHolding.releaseCurrentEvent, htok, hdepth]
    · intro tok htop
      simp [EventHolder.releaseCurrentEvent, htop]
  · intro s htok hdepth
    simp [EventEmitterWithHolding.releaseCurrentEvent, htok, hdepth]

/-- Witness for C5: a state with no current token and depth 0, on which
`releaseCurrentEvent` is a no-op. -/
theorem c5_witness :
    EventEmitterWithHolding.releaseCurrentEvent initSys = .ok initSys :=
  c5_releaseCurrentEvent_routing.2.2 initSys rfl rfl

/-- C6: the holder's `releaseCurrentEvent` raises an invariant violation
exactly when the replay cursor stack is empty; with a non-empty stack whose
top names a type the holder knows, it succeeds and tombstones exactly the
top-of-stack record, leaving every other retained record unchanged. -/
theorem c6_holder_releaseCurrentEvent_invariant :
    ∀ h : HSt,
      ((∃ msg, EventHolder.releaseCurrentEvent h = .error (.invariantViolation msg))
        ↔ h.currentEventKey = [])
      ∧ (∀ tok, h.currentEventKey.head? = some tok →
          (dlookup h.heldEvents tok.eventType).isSome →
          ∃ h', EventHolder.releaseCurrentEvent h = .ok h'
            ∧ EventHolder.heldAt h' tok.eventType tok.index = none
            ∧ ∀ t' i, t' ≠ tok.eventType ∨ i ≠ tok.index →
                EventHolder.heldAt h' t' i = EventHolder.heldAt h t' i) := by
  intro h
  constructor
  · constructor
    · rintro ⟨msg, herr⟩
      cases htop : h.currentEventKey.head? with
      | none => exact List.head?_eq_none_iff.mp htop
      | some tok =>
        exfalso
        simp only [EventHolder.releaseCurrentEvent, htop] at herr
        unfold EventHolder.releaseEvent at herr
        cases hd : dlookup h.heldEvents tok.eventType with
        | none =>
          rw [hd] at herr
          injection herr with herr
          exact Err.noConfusion herr
        | some arr =>
          rw [hd] at herr
          exact Except.noConfusion herr
    · intro he
      refine ⟨EventHolder.notEmittingEventMsg, ?_⟩
      simp [EventHolder.releaseCurrentEvent, he]
  · intro tok htop hknown
    obtain ⟨arr, hd⟩ := Option.isSome_iff_exists.mp hknown
    refine ⟨{ h with heldEvents := dset h.heldEvents tok.eventType (listDel arr tok.index) },
      ?_, ?_⟩
    · simp [EventHolder.releaseCurrentEvent, htop, EventHolder.releaseEvent, hd]
    · exact releaseEvent_exact h tok _ (by simp [EventHolder.releaseEvent, hd])

/-- Witness for C6: on a holder with one retained record of type 7 and a
replay of it in progress (cursor stack top `(7, 0)`), `releaseCurrentEvent`
succeeds and tombstones that record; on a fresh holder it raises. -/
theorem c6_witness :
    (∃ h', EventHolder.releaseCurrentEvent
        (⟨[(7, [some (argsOf 1)])], [⟨7, 0⟩]⟩ : HSt) = .ok h'
      ∧ EventHolder.heldAt h' 7 0 = none
      ∧ ∀ t' i, t' ≠ 7 ∨ i ≠ 0 →
          EventHolder.heldAt h' t' i
            = EventHolder.heldAt (⟨[(7, [some (argsOf 1)])], [⟨7, 0⟩]⟩ : HSt) t' i)
    ∧ ((∃ msg, EventHolder.releaseCurrentEvent initHold = .error (.invariantViolation msg))
        ↔ initHold.currentEventKey = []) :=
  ⟨(c6_holder_releaseCurrentEvent_invariant ⟨[(7, [some (argsOf 1)])], [⟨7, 0⟩]⟩).2
      ⟨7, 0⟩ rfl rfl,
    (c6_holder_releaseCurrentEvent_invariant initHold).1⟩

/-- C7 counterexample configuration: listeners 1 and 2 on type 80 in that
order, listener 3 on type 81; listener 1 emits type 81 from inside its
invocation, listener 2 calls the base `removeCurrentListener` from inside
its invocation. -/
def c7Env : LId → Prog := fun lid =>
  if lid = 1 then .emitP 81 noArgs
  else if lid = 2 then .removeCurrentBaseP
  else .nop

def c7Start : Sys :=
  let s := { initSys with em := (EventEmitter.addListener initSys.em 80 1 none).1 }
  let s := { s with em := (EventEmitter.addListener s.em 80 2 none).1 }
  { s with em := (EventEmitter.addListener s.em 81 3 none).1 }

def c7Emit : Except Err Sys := EventEmitter.emit (invokeOf c7Env 6) c7Start 80 noArgs

/-- C7 counterexample: listener 2 executes during the `emit(80)` pass
(exactly one live invocation of it is logged) and calls
`removeCurrentListener` from inside that execution, yet the call raises
nothing and listener 2's slot is still registered afterwards — because the
nested `emit(81)` run by listener 1 cleared the shared cursor's event type.
So `removeCurrentListener` called by a listener during an emit pass does
not always remove the currently-executing listener's slot. -/
theorem c7_counterexample :
    c7Emit.map (fun s =>
        (EventEmitter.slotAt s.em 80 1,
         (s.log.filter (fun e => e.lid == 2)).length,
         s.em.curKey))
      = .ok (some 2, 1, none) := rfl

/-- C7 amended: `removeCurrentListener` raises the invariant violation
exactly when the cursor key is unset (so always outside an emit pass); with
both cursor fields set — as they are for a listener executing in a pass
with no nested emit since the pass began — it removes exactly the
currently-executing listener's slot, leaving all other slots unchanged;
but when a nested emit has cleared the cursor's event type, it returns
successfully and removes nothing. -/
theorem c7_removeCurrentListener_amended :
    (∀ em : EmSt, em.curKey = none →
      EventEmitter.removeCurrentListener em
        = .error (.invariantViolation EventEmitter.notEmittingListenerMsg))
    ∧ (∀ (em : EmSt) (t : EvType) (k : Nat), em.curType = some t → em.curKey = some k →
        EventEmitter.removeCurrentListener em
          = .ok (EventEmitter.removeSubscription em (some t) (some k))
        ∧ EventEmitter.slotAt (EventEmitter.removeSubscription em (some t) (some k)) t k = none
        ∧ ∀ t' k', t' ≠ t ∨ k' ≠ k →
            EventEmitter.slotAt (EventEmitter.removeSubscription em (some t) (some k)) t' k'
              = EventEmitter.slotAt em t' k')
    ∧ (∀ (em : EmSt) (k : Nat), em.curType = none → em.curKey = some k →
        EventEmitter.removeCurrentListener em = .ok em) := by
  refine ⟨?_, ?_, ?_⟩
  · intro em hk
    simp [EventEmitter.removeCurrentListener, hk]
  · intro em t k ht hk
    refine ⟨?_, (removeSubscription_exact em t k).1, (removeSubscription_exact em t k).2⟩
    simp [EventEmitter.removeCurrentListener, ht, hk]
  · intro em k ht hk
    simp [EventEmitter.removeCurrentListener, ht, hk, EventEmitter.removeSubscription]

/-- Witness for C7 (amended): a mid-pass state whose cursor names type 5,
slot 0; `removeCurrentListener` removes exactly that slot, and on the fresh
emitter it raises. -/
theorem c7_witness :
    (EventEmitter.removeCurrentListener
        (⟨[(5, [some 1, some 2])], [], some 5, some 0⟩ : EmSt)
      = .ok (EventEmitter.removeSubscription
          (⟨[(5, [some 1, some 2])], [], some 5, some 0⟩ : EmSt) (some 5) (some 0)))
    ∧ EventEmitter.slotAt
        (EventEmitter.removeSubscription
          (⟨[(5, [some 1, some 2])], [], some 5, some 0⟩ : EmSt) (some 5) (some 0)) 5 0 = none
    ∧ EventEmitter.removeCurrentListener initEm
        = .error (.invariantViolation EventEmitter.notEmittingListenerMsg) :=
  ⟨(c7_removeCurrentListener_amended.2.1 ⟨[(5, [some 1, some 2])], [], some 5, some 0⟩
      5 0 rfl rfl).1,
   (c7_removeCurrentListener_amended.2.1 ⟨[(5, [some 1, some 2])], [], some 5, some 0⟩
      5 0 rfl rfl).2.1,
   c7_removeCurrentListener_amended.1 initEm rfl⟩

/-- C9 configuration: listeners 1 and 2 on type 10 in that order, listener
3 on type 20; listener 1 emits type 20 from inside its invocation and
listener 2 calls the base `removeCurrentListener` from inside its
invocation. -/
def c9Env : LId → Prog := fun lid =>
  if lid = 1 then .emitP 20 noArgs
  else if lid = 2 then .removeCurrentBaseP
  else .nop

def c9Start : Sys :=
  let s := { initSys with em := (EventEmitter.addListener initSys.em 10 1 none).1 }
  let s := { s with em := (EventEmitter.addListener s.em 10 2 none).1 }
  { s with em := (EventEmitter.addListener s.em 20 3 none).1 }

def c9Emit2 : Except Err Sys :=
  (EventEmitter.emit (invokeOf c9Env 6) c9Start 10 noArgs).bind
    (fun s1 => EventEmitter.emit (invokeOf c9Env 6) s1 10 noArgs)

/-- C9: with the configuration of `c9Start` and `c9Env`, `emit(10)`
completes without raising, listener 2's slot survives its own
`removeCurrentListener` call (the nested `emit(20)` run by listener 1
cleared the shared cursor's event type before listener 2 ran), and a second
`emit(10)` invokes listener 2 again — the log over both passes is
1, 3, 2, 1, 3, 2 and slot (10, 1) is still occupied by listener 2. -/
theorem c9_nested_emit_cursor_not_restored :
    c9Emit2.map (fun s => (EventEmitter.slotAt s.em 10 1, s.log.map CallRec.lid))
      = .ok (some 2, [1, 3, 2, 1, 3, 2]) := rfl

/-- C10 scenario: add listener 1 on type 30 obtaining subscription S, then
`removeAllListeners(30)`, then add listener 2 on type 30, then call
`S.remove()`, then emit type 30. -/
def c10s1 : Sys × Subscription := EventEmitterWithHolding.addListener initSys 30 1 none

def c10s2 : Sys := { c10s1.1 with em := EventEmitter.removeAllListeners c10s1.1.em (some 30) }

def c10s3 : Sys × Subscription := EventEmitterWithHolding.addListener c10s2 30 2 none

def c10s4 : Sys :=
  { c10s3.1 with
    em := EventEmitter.removeSubscription c10s3.1.em (some c10s1.2.eventType)
      (some c10s1.2.key) }

def c10Emit : Except Err Sys := EventEmitter.emit pureInvoke c10s4 30 (argsOf 5)

/-- C10: the old subscription S and the new one both name slot (30, 0)
because slot indices restart after `removeAllListeners`; `S.remove()`
therefore deletes listener 2's registration, and the subsequent emit of
type 30 invokes nobody. -/
theorem c10_slot_reuse_after_removeAllListeners :
    c10s1.2 = ⟨30, 0⟩
    ∧ c10s3.2 = ⟨30, 0⟩
    ∧ EventEmitter.slotAt c10s4.em 30 0 = none
    ∧ c10Emit.map (fun s => s.log) = .ok [] :=
  ⟨rfl, rfl, rfl, rfl⟩

/-- C1 order-probe scenario: one record of type 40 is held (by an
`emitAndHold` with no listeners registered); then a retroactive listener 1
is added whose body removes slot (40, 0) — the slot its own live
registration occupies — from inside the replay. -/
def c1aEnv : LId → Prog := fun lid => if lid = 1 then .removeSubP 40 0 else .nop

def c1aChain : Except Err Sys :=
  (EventEmitterWithHolding.emitAndHold (invokeOf c1aEnv 6) initSys 40 (argsOf 7)).bind
    (fun s =>
      (EventEmitterWithHolding.addRetroactiveListener (invokeOf c1aEnv 6) s 40 1 none).map
        (fun pr => pr.1))

/-- C1 deferral scenario: two records of type 41 are held; then a
retroactive listener 2 is added whose body calls the holding emitter's
`removeCurrentListener` during replay; afterwards type 41 is emitted
again. -/
def c1bEnv : LId → Prog := fun lid => if lid = 2 then .removeCurrentHoldP else .nop

def c1bChain : Except Err Sys :=
  (EventEmitterWithHolding.emitAndHold (invokeOf c1bEnv 6) initSys 41 (argsOf 1)).bind
    (fun s =>
      (EventEmitterWithHolding.emitAndHold (invokeOf c1bEnv 6) s 41 (argsOf 2)).bind
        (fun s =>
          ((EventEmitterWithHolding.addRetroactiveListener (invokeOf c1bEnv 6) s 41 2
              none).map (fun pr => pr.1)).bind
            (fun s => EventEmitter.emit (invokeOf c1bEnv 6) s 41 (argsOf 3))))

/-- C1: while a replay is in progress (`emitDepth ≠ 0`), the holding
emitter's `removeCurrentListener` performs no removal at all — it only sets
the top removal-intent flag, leaving the emitter, holder and log untouched.
In the order-probe scenario the replayed listener can already remove its
own live slot (40, 0), proving the live registration is created before the
replay starts; the replay invocation itself is logged.  In the deferral
scenario the listener asks for removal while replaying the first of two
held records, yet it still receives the second record (no immediate
removal), its live slot is gone once `addRetroactiveListener` returns, and
a subsequent emit of type 41 reaches nobody. -/
theorem c1_addRetroactiveListener_defers_removal :
    (∀ s : Sys, s.hw.emitDepth ≠ 0 →
      EventEmitterWithHolding.removeCurrentListener s =
        .ok { s with hw := { s.hw with removalStack := setHead s.hw.removalStack true } })
    ∧ c1aChain.map (fun s => (EventEmitter.slotAt s.em 40 0, s.log)) =
        .ok (none, [⟨.held 40 0, 1, none, argsOf 7⟩])
    ∧ c1bChain.map (fun s => (EventEmitter.slotAt s.em 41 0, s.log)) =
        .ok (none, [⟨.held 41 0, 2, none, argsOf 1⟩, ⟨.held 41 1, 2, none, argsOf 2⟩]) := by
  refine ⟨?_, rfl, rfl⟩
  intro s h
  simp [EventEmitterWithHolding.removeCurrentListener, h]

/-- Witness for C1: on a state with replay depth 1 and removal-intent stack
`[false]`, `removeCurrentListener` only flips the flag. -/
theorem c1_witness :
    EventEmitterWithHolding.removeCurrentListener
        ({ initSys with hw := ⟨none, [false], 1⟩ } : Sys)
      = .ok { ({ initSys with hw := ⟨none, [false], 1⟩ } : Sys) with
          hw := { (⟨none, [false], 1⟩ : WSt) with
            removalStack := setHead [false] true } } :=
  c1_addRetroactiveListener_defers_removal.1 { initSys with hw := ⟨none, [false], 1⟩ }
    (by decide)

theorem emSt_eq_of_fields (x y : EmSt) (h1 : x.listByType = y.listByType)
    (h2 : x.ctxByType = y.ctxByType) (h3 : x.curType = y.curType)
    (h4 : x.curKey = y.curKey) : x = y := by
  cases x
  cases y
  simp_all

theorem rsub_listByType_none (em : EmSt) (t : EvType) (k : Nat)
    (hL : dlookup em.listByType t = none) :
    (EventEmitter.removeSubscription em (some t) (some k)).listByType = em.listByType := by
  unfold EventEmitter.removeSubscription
  simp only [hL]
  split <;> rfl

theorem rsub_listByType_some (em : EmSt) (t : EvType) (k : Nat) (arr : List (Option LId))
    (hL : dlookup em.listByType t = some arr) :
    (EventEmitter.removeSubscription em (some t) (some k)).listByType
      = dset em.listByType t (listDel arr k) := by
  unfold EventEmitter.removeSubscription
  simp only [hL]
  split <;> rfl

theorem rsub_ctxByType_none (em : EmSt) (t : EvType) (k : Nat)
    (hC : dlookup em.ctxByType t = none) :
    (EventEmitter.removeSubscription em (some t) (some k)).ctxByType = em.ctxByType := by
  unfold EventEmitter.removeSubscription
  cases hL : dlookup em.listByType t <;> simp [hL, hC]

theorem rsub_ctxByType_some (em : EmSt) (t : EvType) (k : Nat) (carr : List (Option Ctx))
    (hC : dlookup em.ctxByType t = some carr) :
    (EventEmitter.removeSubscription em (some t) (some k)).ctxByType
      = dset em.ctxByType t (listDel carr k) := by
  unfold EventEmitter.removeSubscription
  cases hL : dlookup em.listByType t <;> simp [hL, hC]

theorem rsub_curType (em : EmSt) (t : EvType) (k : Nat) :
    (EventEmitter.removeSubscription em (some t) (some k)).curType = em.curType := by
  unfold EventEmitter.removeSubscription
  cases hL : dlookup em.listByType t <;> simp only [hL] <;> split <;> rfl

theorem rsub_curKey (em : EmSt) (t : EvType) (k : Nat) :
    (EventEmitter.removeSubscription em (some t) (some k)).curKey = em.curKey := by
  unfold EventEmitter.removeSubscription
  cases hL : dlookup em.listByType t <;> simp only [hL] <;> split <;> rfl

/-- Removing the same subscription twice is the same as removing it once. -/
theorem rsub_idem (em : EmSt) (t : EvType) (k : Nat) :
    EventEmitter.removeSubscription (EventEmitter.removeSubscription em (some t) (some k))
        (some t) (some k)
      = EventEmitter.removeSubscription em (some t) (some k) := by
  apply emSt_eq_of_fields
  · cases hL : dlookup em.listByType t with
    | none =>
      have h1 := rsub_listByType_none em t k hL
      have hL2 : dlookup (EventEmitter.removeSubscription em (some t) (some k)).listByType t
          = none := by rw [h1]; exact hL
      rw [rsub_listByType_none _ t k hL2]
    | some arr =>
      have h1 := rsub_listByType_some em t k arr hL
      have hL2 : dlookup (EventEmitter.removeSubscription em (some t) (some k)).listByType t
          = some (listDel arr k) := by rw [h1]; exact dlookup_dset_self _ _ _
      rw [rsub_listByType_some _ t k _ hL2, h1, dset_dset, listDel_listDel]
  · cases hC : dlookup em.ctxByType t with
    | none =>
      have h1 := rsub_ctxByType_none em t k hC
      have hC2 : dlookup (EventEmitter.removeSubscription em (some t) (some k)).ctxByType t
          = none := by rw [h1]; exact hC
      rw [rsub_ctxByType_none _ t k hC2]
    | some carr =>
      have h1 := rsub_ctxByType_some em t k carr hC
      have hC2 : dlookup (EventEmitter.removeSubscription em (some t) (some k)).ctxByType t
          = some (listDel carr k) := by rw [h1]; exact dlookup_dset_self _ _ _
      rw [rsub_ctxByType_some _ t k _ hC2, h1, dset_dset, listDel_listDel]
  · rw [rsub_curType]
  · rw [rsub_curKey]

/-- `emit` on a type with no listener array is a no-op. -/
theorem emit_no_listeners (invoke : LId → Sys → Except Err Sys) (s : Sys) (t : EvType)
    (args : Args) (hs : args.s = none) (hd : dlookup s.em.listByType t = none) :
    EventEmitter.emit invoke s t args = .ok s := by
  simp [EventEmitter.emit, hs, hd]

/-- `emit` on a type whose slots are all tombstoned (and with the cursor
already clear, as it is outside a pass) is a no-op. -/
theorem emit_all_tombstoned (invoke : LId → Sys → Except Err Sys) (s : Sys) (t : EvType)
    (args : Args) (hs : args.s = none) (h1 : s.em.curType = none) (h2 : s.em.curKey = none)
    (hall : ∀ k, EventEmitter.slotAt s.em t k = none) :
    EventEmitter.emit invoke s t args = .ok s := by
  cases hd : dlookup s.em.listByType t with
  | none => exact emit_no_listeners invoke s t args hs hd
  | some arr0 =>
    have hocc : occupiedKeys arr0 = [] := by
      refine List.filter_eq_nil_iff.mpr ?_
      intro i hi
      have hthis := hall i
      rw [EventEmitter.slotAt, slotTab, hd] at hthis
      simp only [Option.getD_some] at hthis
      simpa using hthis
    have hem : ({ s.em with curType := none, curKey := none } : EmSt) = s.em :=
      emSt_clear_cursor_eq s.em h1 h2
    simp only [EventEmitter.emit, hs, hd, hocc, EventEmitter.emitPass]
    simp [hem]

/-- `emitToListener` on a type with no retained array is a no-op. -/
theorem emitToListener_no_held (invoke : LId → Sys → Except Err Sys) (s : Sys) (t : EvType)
    (lid : LId) (ctx : Option Ctx) (hd : dlookup s.hold.heldEvents t = none) :
    EventHolder.emitToListener invoke s t lid ctx = .ok s := by
  simp [EventHolder.emitToListener, hd]

/-- `emitToListener` on a type whose retained records are all tombstoned is
a no-op. -/
theorem emitToListener_all_tombstoned (invoke : LId → Sys → Except Err Sys) (s : Sys)
    (t : EvType) (lid : LId) (ctx : Option Ctx)
    (hall : ∀ i, EventHolder.heldAt s.hold t i = none) :
    EventHolder.emitToListener invoke s t lid ctx = .ok s := by
  cases hd : dlookup s.hold.heldEvents t with
  | none => simp [EventHolder.emitToListener, hd]
  | some arr0 =>
    simp only [EventHolder.emitToListener, hd]
    exact holdPass_all_none invoke t lid ctx _ s hall

/-- C8 counterexample: releasing a token whose event type is unknown to the
holder is `delete` on `undefined` and raises a `TypeError` — it is not a
defined no-op.  Concretely, on a fresh holder, releasing the token
`(eventType 0, index 0)` raises. -/
theorem c8_counterexample :
    EventHolder.releaseEvent initHold ⟨0, 0⟩ = .error .typeError := rfl

/-- C8 amended: removal and release are total and idempotent except for
tokens whose event type is unknown to the holder (for which `releaseEvent`
raises a `TypeError`): removing a subscription twice equals removing it
once; a succeeded `releaseEvent` repeated returns the same holder; a token
whose type the holder knows always releases successfully — and every token
returned by `holdEvent` has a type the holder knows from then on; emitting
a type with no listeners (no array, or only tombstones with the cursor
clear) is a no-op; replaying a type with no retained records (no array, or
only tombstones) is a no-op. -/
theorem c8_release_total_idempotent_amended :
    (∀ (em : EmSt) (t : EvType) (k : Nat),
      EventEmitter.removeSubscription
          (EventEmitter.removeSubscription em (some t) (some k)) (some t) (some k)
        = EventEmitter.removeSubscription em (some t) (some k))
    ∧ (∀ (h : HSt) (tok : Token) (h' : HSt),
        EventHolder.releaseEvent h tok = .ok h' →
        EventHolder.releaseEvent h' tok = .ok h')
    ∧ (∀ (h : HSt) (tok : Token), (dlookup h.heldEvents tok.eventType).isSome →
        ∃ h', EventHolder.releaseEvent h tok = .ok h')
    ∧ (∀ (h : HSt) (t : EvType) (args : Args),
        (dlookup (EventHolder.holdEvent h t args).1.heldEvents t).isSome)
    ∧ (∀ (invoke : LId → Sys → Except Err Sys) (s : Sys) (t : EvType) (args : Args),
        args.s = none → dlookup s.em.listByType t = none →
        EventEmitter.emit invoke s t args = .ok s)
    ∧ (∀ (invoke : LId → Sys → Except Err Sys) (s : Sys) (t : EvType) (args : Args),
        args.s = none → s.em.curType = none → s.em.curKey = none →
        (∀ k, EventEmitter.slotAt s.em t k = none) →
        EventEmitter.emit invoke s t args = .ok s)
    ∧ (∀ (invoke : LId → Sys → Except Err Sys) (s : Sys) (t : EvType) (lid : LId)
        (ctx : Option Ctx), dlookup s.hold.heldEvents t = none →
        EventHolder.emitToListener invoke s t lid ctx = .ok s)
    ∧ (∀ (invoke : LId → Sys → Except Err Sys) (s : Sys) (t : EvType) (lid : LId)
        (ctx : Option Ctx), (∀ i, EventHolder.heldAt s.hold t i = none) →
        EventHolder.emitToListener invoke s t lid ctx = .ok s) := by
  refine ⟨rsub_idem, ?_, ?_, ?_, emit_no_listeners, emit_all_tombstoned,
    emitToListener_no_held, emitToListener_all_tombstoned⟩
  · intro h tok h' hrel
    unfold EventHolder.releaseEvent at hrel
    cases hd : dlookup h.heldEvents tok.eventType with
    | none => rw [hd] at hrel; exact Except.noConfusion hrel
    | some arr =>
      rw [hd] at hrel
      injection hrel with hrel
      subst hrel
      simp [EventHolder.releaseEvent, dlookup_dset_self, dset_dset, listDel_listDel]
  · intro h tok hknown
    obtain ⟨arr, hd⟩ := Option.isSome_iff_exists.mp hknown
    exact ⟨{ h with heldEvents := dset h.heldEvents tok.eventType (listDel arr tok.index) },
      by simp [EventHolder.releaseEvent, hd]⟩
  · intro h t args
    simp [EventHolder.holdEvent, dlookup_dset_self]

/-- Witness for C8 (amended): double removal of subscription (3, 0) on a
one-listener emitter equals single removal; a held-then-released token
releases again to the same holder; emitting type 9 on the fresh system is
a no-op. -/
theorem c8_witness :
    (EventEmitter.removeSubscription
        (EventEmitter.removeSubscription (EventEmitter.addListener initEm 3 1 none).1
          (some 3) (some 0)) (some 3) (some 0)
      = EventEmitter.removeSubscription (EventEmitter.addListener initEm 3 1 none).1
          (some 3) (some 0))
    ∧ EventHolder.releaseEvent (⟨[(7, [none])], []⟩ : HSt) ⟨7, 0⟩ = .ok ⟨[(7, [none])], []⟩
    ∧ EventEmitter.emit pureInvoke initSys 9 noArgs = .ok initSys :=
  ⟨c8_release_total_idempotent_amended.1 (EventEmitter.addListener initEm 3 1 none).1 3 0,
   c8_release_total_idempotent_amended.2.1 (⟨[(7, [some (argsOf 1)])], []⟩ : HSt) ⟨7, 0⟩
     (⟨[(7, [none])], []⟩ : HSt) rfl,
   c8_release_total_idempotent_amended.2.2.2.2.1 pureInvoke initSys 9 noArgs rfl rfl⟩

/-- Reduction of `emit` when the type has a listener array and the arity
sentinel is unset. -/
theorem emit_eq_of_some (invoke : LId → Sys → Except Err Sys) (s : Sys) (t : EvType)
    (args : Args) (arr0 : List (Option LId)) (hs : args.s = none)
    (hd : dlookup s.em.listByType t = some arr0) :
    EventEmitter.emit invoke s t args =
      match EventEmitter.emitPass invoke t args (occupiedKeys arr0)
          { s with em := { s.em with curType := some t } } with
      | .error e => .error e
      | .ok s2 => .ok { s2 with em := { s2.em with curType := none, curKey := none } } := by
  simp [EventEmitter.emit, hs, hd]

/-- C3 scenario: listener 1 (whose body registers a fresh listener 3 on the
same type 60) and listener 2 are registered on type 60; type 60 is emitted
twice. -/
def c3aEnv : LId → Prog := fun lid => if lid = 1 then .addListenerP 60 3 none else .nop

def c3aStart : Sys :=
  let s := { initSys with em := (EventEmitter.addListener initSys.em 60 1 none).1 }
  { s with em := (EventEmitter.addListener s.em 60 2 none).1 }

def c3aChain : Except Err Sys :=
  (EventEmitter.emit (invokeOf c3aEnv 6) c3aStart 60 noArgs).bind
    (fun s => EventEmitter.emit (invokeOf c3aEnv 6) s 60 noArgs)

/-- C3 scenario: listener 1's body removes the not-yet-invoked listener 2's
subscription (61, 1) during the pass. -/
def c3bEnv : LId → Prog := fun lid => if lid = 1 then .removeSubP 61 1 else .nop

def c3bStart : Sys :=
  let s := { initSys with em := (EventEmitter.addListener initSys.em 61 1 none).1 }
  { s with em := (EventEmitter.addListener s.em 61 2 none).1 }

/-- C3 scenario: listener 2's body removes the already-invoked listener 1's
subscription (62, 0) during the pass. -/
def c3cEnv : LId → Prog := fun lid => if lid = 2 then .removeSubP 62 0 else .nop

def c3cStart : Sys :=
  let s := { initSys with em := (EventEmitter.addListener initSys.em 62 1 none).1 }
  { s with em := (EventEmitter.addListener s.em 62 2 none).1 }

/-- C3: (1) with listener bodies that do not mutate the emitter, `emit`
invokes exactly the occupied slots of the type present at call time, in
ascending slot (registration) order, with their stored contexts and the
emitted arguments — `passCalls` over the call-time snapshot — and changes
nothing else; (2) with arbitrary listener bodies that do not themselves
record live invocations of the emitted type, every live invocation of the
pass targets a slot index that existed at call time, so listeners appended
during the pass are never invoked in it; (3) concretely, a listener added
during a pass of type 60 is absent from that pass's log but present in the
next one; (4) a not-yet-invoked listener removed during the pass is
skipped; (5) removing an already-invoked listener leaves the rest of the
pass unaffected. -/
theorem c3_emit_snapshot_order :
    (∀ (s : Sys) (t : EvType) (args : Args), args.s = none →
      ∃ s', EventEmitter.emit pureInvoke s t args = .ok s'
        ∧ s'.log = s.log ++
            passCalls s.em t args (occupiedKeys ((dlookup s.em.listByType t).getD []))
        ∧ s'.em.listByType = s.em.listByType ∧ s'.em.ctxByType = s.em.ctxByType
        ∧ s'.hold = s.hold ∧ s'.hw = s.hw)
    ∧ (∀ (invoke : LId → Sys → Except Err Sys) (s : Sys) (t : EvType) (args : Args)
        (s' : Sys), AvoidsLiveT t invoke → args.s = none →
        EventEmitter.emit invoke s t args = .ok s' →
        ∃ ext, s'.log = s.log ++ ext ∧
          ∀ e ∈ ext, ∀ k, liveKeyOf t e = some k →
            k < ((dlookup s.em.listByType t).getD []).length)
    ∧ c3aChain.map (fun s => s.log.map CallRec.lid) = .ok [1, 2, 1, 2, 3]
    ∧ (EventEmitter.emit (invokeOf c3bEnv 6) c3bStart 61 noArgs).map
        (fun s => (s.log.map CallRec.lid, EventEmitter.slotAt s.em 61 1)) = .ok ([1], none)
    ∧ (EventEmitter.emit (invokeOf c3cEnv 6) c3cStart 62 noArgs).map
        (fun s => (s.log.map CallRec.lid, EventEmitter.slotAt s.em 62 0))
        = .ok ([1, 2], none) := by
  refine ⟨?_, ?_, rfl, rfl, rfl⟩
  · intro s t args hs
    cases hd : dlookup s.em.listByType t with
    | none =>
      refine ⟨s, emit_no_listeners pureInvoke s t args hs hd, ?_, rfl, rfl, rfl, rfl⟩
      simp [hd, occupiedKeys, passCalls]
    | some arr0 =>
      obtain ⟨ck, hck⟩ := emitPass_pure t args (occupiedKeys arr0)
        { s with em := { s.em with curType := some t } }
      rw [emit_eq_of_some pureInvoke s t args arr0 hs hd, hck]
      have hpc : passCalls ({ s with em := { s.em with curType := some t } } : Sys).em t args
            (occupiedKeys arr0)
          = passCalls s.em t args (occupiedKeys arr0) :=
        passCalls_congr ({ s with em := { s.em with curType := some t } } : Sys).em s.em
          rfl rfl t args (occupiedKeys arr0)
      refine ⟨_, rfl, ?_, rfl, rfl, rfl, rfl⟩
      simp [hpc, hd]
  · intro invoke s t args s' hA hs hemit
    cases hd : dlookup s.em.listByType t with
    | none =>
      rw [emit_no_listeners invoke s t args hs hd] at hemit
      injection hemit with hemit
      subst hemit
      exact ⟨[], by simp, by simp⟩
    | some arr0 =>
      rw [emit_eq_of_some invoke s t args arr0 hs hd] at hemit
      split at hemit
      · exact Except.noConfusion hemit
      · rename_i s2 heq
        injection hemit with hemit
        subst hemit
        obtain ⟨ext, hlog, hmem⟩ := emitPass_snapshot t args invoke hA
          (occupiedKeys arr0) _ s2 heq
        refine ⟨ext, by simpa using hlog, ?_⟩
        intro e he k hk
        have hlt := occupiedKeys_mem_lt arr0 k (hmem e he k hk)
        simpa [hd] using hlt

/-- Witness for C3: the snapshot/order part applied to the concrete state
`c3aStart` and type 60 — the pass invokes slots 0 and 1 (listeners 1 and 2)
in that order. -/
theorem c3_witness :
    ∃ s', EventEmitter.emit pureInvoke c3aStart 60 noArgs = .ok s'
      ∧ s'.log = c3aStart.log ++
          passCalls c3aStart.em 60 noArgs
            (occupiedKeys ((dlookup c3aStart.em.listByType 60).getD []))
      ∧ s'.em.listByType = c3aStart.em.listByType
      ∧ s'.em.ctxByType = c3aStart.em.ctxByType
      ∧ s'.hold = c3aStart.hold ∧ s'.hw = c3aStart.hw :=
  c3_emit_snapshot_order.1 c3aStart 60 noArgs rfl

/-- The hold-then-retroactive sequence of C4 on a fresh system: emit and
hold (T, args) with no listeners registered, then add a retroactive
listener. -/
def c4Hold (t : EvType) (lid : LId) (ctx : Option Ctx) (args : Args) : Except Err Sys :=
  (EventEmitterWithHolding.emitAndHold pureInvoke initSys t args).bind
    (fun s =>
      (EventEmitterWithHolding.addRetroactiveListener pureInvoke s t lid ctx).map
        (fun pr => pr.1))

/-- The live sequence of C4 on a fresh system: add a listener, then emit
(T, args). -/
def c4Live (t : EvType) (lid : LId) (ctx : Option Ctx) (args : Args) : Except Err Sys :=
  EventEmitter.emit pureInvoke (EventEmitterWithHolding.addListener initSys t lid ctx).1
    t args

/-- C4: on a fresh holding emitter, `emitAndHold(T, x)` followed by
`addRetroactiveListener(T, L)` invokes `L` exactly once, and the invocation
a listener observes — identity, `this` context, all received argument
positions — is the same as the single invocation produced by
`addListener(T, L)` followed by `emit(T, x)`. -/
theorem c4_hold_replay_equivalence :
    ∀ (t : EvType) (lid : LId) (ctx : Option Ctx) (a b c d e : Option Nat),
      (c4Hold t lid ctx ⟨a, b, c, d, e, none⟩).map (fun s => s.log.map CallRec.obs)
        = .ok [(lid, ctx, ⟨a, b, c, d, e, none⟩)]
      ∧ (c4Live t lid ctx ⟨a, b, c, d, e, none⟩).map (fun s => s.log.map CallRec.obs)
        = .ok [(lid, ctx, ⟨a, b, c, d, e, none⟩)] := by
  intro t lid ctx a b c d e
  cases ctx with
  | none =>
    constructor <;>
      simp [c4Hold, c4Live, EventEmitterWithHolding.emitAndHold, EventHolder.holdEvent,
        EventEmitter.emit, EventEmitterWithHolding.addRetroactiveListener,
        EventEmitterWithHolding.addListener, EventEmitter.addListener,
        EventHolder.emitToListener, EventHolder.holdPass, EventHolder.heldAt,
        EventEmitter.emitPass, EventEmitter.slotAt, EventEmitter.ctxAt, slotTab, dlookup,
        dset, setPad, pureInvoke, initSys, initEm, initHold, occupiedKeys, CallRec.obs,
        setHead, listDel, List.range_succ, List.filter, Except.bind, Except.map]
  | some c0 =>
    constructor <;>
      simp [c4Hold, c4Live, EventEmitterWithHolding.emitAndHold, EventHolder.holdEvent,
        EventEmitter.emit, EventEmitterWithHolding.addRetroactiveListener,
        EventEmitterWithHolding.addListener, EventEmitter.addListener,
        EventHolder.emitToListener, EventHolder.holdPass, EventHolder.heldAt,
        EventEmitter.emitPass, EventEmitter.slotAt, EventEmitter.ctxAt, slotTab, dlookup,
        dset, setPad, pureInvoke, initSys, initEm, initHold, occupiedKeys, CallRec.obs,
        setHead, listDel, List.range_succ, List.filter, Except.bind, Except.map]
